import Mathlib

/-!
Shallow embedding of the EdgeWARN storm-cell detection core
(`src/EdgeWARN/core/process/detect/`): the gate/polygon mapper, the
region-growth engine (`GateMapper` in `tools/gatemapper.py`), the cell
record builder (`CellDataSaver` in `tools/save.py`) and the cell tracker
(`StormCellTracker` in `track.py`).

Modelling conventions:
* numpy 2D arrays become functions `Nat → Nat → _` together with explicit
  `rows`/`cols` extents; array scans (`np.any`, `np.unique`, boolean mask
  indexing) scan `List.range rows × List.range cols` in row-major order,
  exactly as numpy does;
* floating point values become `ℚ`, except reflectivity values, which may
  be NaN and become the sum type `RVal`; Python float equality (where
  `nan == nan` is false) is the separate `pyEq`;
* external library primitives (shapely `polygon.contains`, skimage
  `measure.find_contours`, `np.exp`) are parameters of the embedded
  functions, so every theorem quantifies over their behaviour and every
  witness instantiates them with a concrete function.
-/

/-- A reflectivity (or other float) value: either NaN or a rational. -/
inductive RVal where
  | nan : RVal
  | val : ℚ → RVal
deriving DecidableEq

/-- Python `==` on floats: `nan` compares unequal to everything, including
itself. -/
def pyEq : RVal → RVal → Bool
  | RVal.val a, RVal.val b => a == b
  | _, _ => false

/-- Python `==` on a pair of floats (tuple comparison is componentwise). -/
def pyEqPair (a b : RVal × RVal) : Bool :=
  pyEq a.1 b.1 && pyEq a.2 b.2

/-- An integer ownership grid (`polygon_grid`); meaningful on
`[0,rows) × [0,cols)`. -/
abbrev Grid := Nat → Nat → Int

/-- A boolean mask over the grid. -/
abbrev Mask := Nat → Nat → Bool

/-- Embeds `refl_grid >= self.refl_threshold` per gate: a numpy `>=` comparison,
false on NaN. -/
def reflMask (reflg : Nat → Nat → RVal) (thr : ℚ) : Mask := fun i j =>
  match reflg i j with
  | RVal.nan => false
  | RVal.val q => thr ≤ q

/-- Embeds `scipy.ndimage.binary_dilation` with the 4-connected structuring element
`[[0,1,0],[1,1,1],[0,1,0]]`: a gate is set iff it or one of its in-bounds
4-neighbours is set. -/
def dilate4 (rows cols : Nat) (m : Mask) : Mask := fun i j =>
  m i j || (decide (0 < i) && m (i - 1) j) || (decide (i + 1 < rows) && m (i + 1) j)
    || (decide (0 < j) && m i (j - 1)) || (decide (j + 1 < cols) && m i (j + 1))

/-- Embeds `occupied = polygon_grid > 0`. -/
def occupied (g : Grid) : Mask := fun i j => decide (0 < g i j)

/-- Embeds `candidates = expanded & (~occupied) & mask`, restricted to the array
extent. -/
def candidates (rows cols : Nat) (mask : Mask) (g : Grid) : Mask := fun i j =>
  decide (i < rows) && decide (j < cols) &&
    dilate4 rows cols (occupied g) i j && !(occupied g i j) && mask i j

/-- Embeds `np.any(candidates)` over the array extent. -/
def anyCandidates (rows cols : Nat) (mask : Mask) (g : Grid) : Bool :=
  (List.range rows).any fun i => (List.range cols).any fun j =>
    candidates rows cols mask g i j

/-- Insert an integer into an ascending duplicate-free list, keeping it
ascending and duplicate-free. -/
def insertUnique (x : Int) : List Int → List Int
  | [] => [x]
  | y :: ys =>
    if x < y then x :: y :: ys
    else if x = y then y :: ys
    else y :: insertUnique x ys

/-- Embeds `np.unique(polygon_grid[occupied])`: the ascending duplicate-free list of
the positive values stored in the grid's extent. -/
def uniqueIds (rows cols : Nat) (g : Grid) : List Int :=
  ((List.range rows).flatMap fun i =>
      (List.range cols).filterMap fun j =>
        if 0 < g i j then some (g i j) else none).foldl
    (fun acc v => insertUnique v acc) []

/-- The `new_assignments` array built by one iteration of
`GateMapper.expand_gates`: for each candidate gate still equal to 0, every
`poly_id` in ascending `unique_ids` order writes itself wherever the dilation
of its own mask covers the gate, later ids overwriting earlier ones (the
Python loop writes into the shared `new_assignments` array sequentially). -/
def newAssignments (rows cols : Nat) (mask : Mask) (g : Grid) : Grid := fun i j =>
  if candidates rows cols mask g i j && decide (g i j = 0) then
    (uniqueIds rows cols g).foldl
      (fun acc pid =>
        if dilate4 rows cols (fun a b => decide (g a b = pid)) i j then pid else acc)
      0
  else 0

/-- Embeds `polygon_grid[new_assignments > 0] = new_assignments[new_assignments > 0]`:
one growth iteration applied to the grid. -/
def growStep (rows cols : Nat) (mask : Mask) (g : Grid) : Grid := fun i j =>
  if 0 < newAssignments rows cols mask g i j then newAssignments rows cols mask g i j
  else g i j

/-- The `for iteration in range(max_iterations)` loop of
`GateMapper.expand_gates`: each iteration first checks
`np.any(candidates)` and breaks when there is none, otherwise applies one
growth step. -/
def growLoop (rows cols : Nat) (mask : Mask) : Nat → Grid → Grid
  | 0, g => g
  | n + 1, g =>
    if anyCandidates rows cols mask g then growLoop rows cols mask n (growStep rows cols mask g)
    else g

/-- Embeds `GateMapper.expand_gates`: grow the mapped ownership grid into
4-connected, threshold-qualified, unowned gates; `max_iterations` defaults
to 100. (The `refl_threshold is None` guard is dropped: the threshold is a
plain `ℚ` here.) -/
def expand_gates (rows cols : Nat) (reflg : Nat → Nat → RVal) (thr : ℚ)
    (g : Grid) (max_iterations : Nat := 100) : Grid :=
  growLoop rows cols (reflMask reflg thr) max_iterations g

/-- One GeoJSON feature of the ProbSevere dataset, as
`GateMapper.map_gates_to_polygons` reads it: `properties['ID']` (already an
integer) and `geometry['coordinates']`, a list of rings of `(lon, lat)`
vertices. -/
structure Feature where
  id : Int
  rings : List (List (ℚ × ℚ))
deriving DecidableEq

/-- A shapely-style containment test, `polygon.contains(point)`, abstracted:
given the feature's rings and a `(lon, lat)` point, decide strict
containment. It is a parameter because `shapely` is an external library; the
mapper only consumes its boolean answer. -/
abbrev ContainsFn := List (List (ℚ × ℚ)) → ℚ × ℚ → Bool

/-- The in-place longitude normalization loop of `map_gates_to_polygons`:
every ring vertex with `lon < 0` becomes `(lon + 360, lat)`. -/
def normalizeRing (r : List (ℚ × ℚ)) : List (ℚ × ℚ) :=
  r.map fun p => if p.1 < 0 then (p.1 + 360, p.2) else p

/-- Normalization applied to all rings of a feature. -/
def normalizeFeature (f : Feature) : Feature :=
  { f with rings := f.rings.map normalizeRing }

/-- The per-feature gate-assignment pass: every gate still equal to 0 whose
point `(lon_grid[i,j], lat_grid[i,j]) = (lons[j], lats[i])` the polygon
contains receives this feature's id. -/
def assignFeature (contains : ContainsFn) (lats lons : List ℚ) (g : Grid)
    (f : Feature) : Grid := fun i j =>
  if g i j = 0 ∧ contains f.rings (lons.getD j 0, lats.getD i 0) then f.id
  else g i j

/-- Embeds `GateMapper.map_gates_to_polygons`: first mutate the ProbSevere features
in place (longitude normalization), then let every feature, in supplied
order, claim the still-unowned gates its polygon contains. The Python
method mutates `self.ps_ds` and returns the grid; the model returns the
mutated feature list alongside the grid. -/
def map_gates_to_polygons (contains : ContainsFn) (lats lons : List ℚ)
    (features : List Feature) : List Feature × Grid :=
  let feats := features.map normalizeFeature
  (feats, feats.foldl (assignFeature contains lats lons) (fun _ _ => 0))

/-- The id of the first feature in the list whose polygon contains the
point, or 0 when none does. -/
def firstMatchId (contains : ContainsFn) (feats : List Feature) (pt : ℚ × ℚ) : Int :=
  match feats.find? (fun f => contains f.rings pt) with
  | some f => f.id
  | none => 0

/-- One entry of a cell's `storm_history` time series, as built by
`CellDataSaver.append_storm_history`. -/
structure Snapshot where
  id : Int
  timestamp : String
  max_refl : RVal
  num_gates : Nat
  centroid : RVal × RVal
deriving DecidableEq

/-- One cell record dictionary, as built by `CellDataSaver.create_entry` and
consumed by `StormCellTracker.update_cells`. The `hail_core` field (a
secondary sub-polygon, traversed by no claim here) is not modelled. -/
structure Entry where
  id : Int
  num_gates : Nat
  centroid : RVal × RVal
  bbox : List (ℚ × ℚ)
  max_refl : RVal
  storm_history : List Snapshot
deriving DecidableEq

/-- The cells of `mask = polygon_grid == poly_id` in numpy boolean-indexing
(row-major) order, over the array extent. -/
def maskCells (rows cols : Nat) (g : Grid) (pid : Int) : List (Nat × Nat) :=
  (List.range rows).flatMap fun i =>
    (List.range cols).filterMap fun j =>
      if g i j = pid then some (i, j) else none

/-- The `(refl, lat, lon)` triples of the gates of a region that survive the
`~np.isnan(refl_vals)` filter of `create_entry`, with the NaN-free
reflectivity extracted. -/
def validGates (rows cols : Nat) (g : Grid) (reflg : Nat → Nat → RVal)
    (lats lons : List ℚ) (pid : Int) : List (ℚ × ℚ × ℚ) :=
  (maskCells rows cols g pid).filterMap fun c =>
    match reflg c.1 c.2 with
    | RVal.nan => none
    | RVal.val q => some (q, lats.getD c.1 0, lons.getD c.2 0)

/-- Embeds `np.sum` of a list of rationals. -/
def sumQ (l : List ℚ) : ℚ := l.foldl (· + ·) 0

/-- Embeds `np.nanmax` over an already NaN-free nonempty list: the plain maximum. -/
def maxQ (x : ℚ) (l : List ℚ) : ℚ := l.foldl max x

/-- Python float `%` for a positive modulus: `a - b * ⌊a / b⌋`; for `b = 360`
this is the longitude wrap used in `create_entry`. -/
def qmod (a b : ℚ) : ℚ := a - b * (⌊a / b⌋ : ℤ)

/-- The body of the `for poly_id, bbox in self.bboxes.items()` loop of
`CellDataSaver.create_entry` for a single `(poly_id, bbox)` pair: `none`
when the loop `continue`s (id 0, or empty mask), otherwise the record
appended to `results`. `wexp` abstracts `np.exp` (transcendental, so a
parameter); `g` is the grid the code reads, namely
`self.mapped_ds['PolygonID']`. -/
def entryFor (wexp : ℚ → ℚ) (rows cols : Nat) (g : Grid)
    (reflg : Nat → Nat → RVal) (lats lons : List ℚ)
    (pb : Int × List (ℚ × ℚ)) : Option Entry :=
  if pb.1 = 0 then none
  else if (maskCells rows cols g pb.1).isEmpty then none
  else
    let valid := validGates rows cols g reflg lats lons pb.1
    let max_refl := match valid with
      | [] => RVal.nan
      | v :: vs => RVal.val (maxQ v.1 (vs.map (·.1)))
    let centroid := match valid with
      | [] => (RVal.nan, RVal.nan)
      | _ =>
        let sw := sumQ (valid.map fun v => wexp v.1)
        (RVal.val (sumQ (valid.map fun v => v.2.1 * wexp v.1) / sw),
         RVal.val (qmod (sumQ (valid.map fun v => v.2.2 * wexp v.1) / sw) 360))
    some { id := pb.1
           num_gates := (maskCells rows cols g pb.1).length
           centroid := centroid
           bbox := pb.2
           max_refl := max_refl
           storm_history := [] }

/-- Embeds `CellDataSaver.create_entry`: one record per surviving `bboxes` item, in
dictionary (insertion) order. -/
def create_entry (wexp : ℚ → ℚ) (bboxes : List (Int × List (ℚ × ℚ)))
    (rows cols : Nat) (g : Grid) (reflg : Nat → Nat → RVal)
    (lats lons : List ℚ) : List Entry :=
  bboxes.filterMap (entryFor wexp rows cols g reflg lats lons)

/-- The snapshot `latest_storm_history` that `append_storm_history` builds
from a cell's current fields. -/
def mkSnapshot (ts : String) (cell : Entry) : Snapshot :=
  { id := cell.id
    timestamp := ts
    max_refl := cell.max_refl
    num_gates := cell.num_gates
    centroid := cell.centroid }

/-- The per-cell body of `CellDataSaver.append_storm_history`: skip when the
latest existing snapshot has the same timestamp, or when it has
Python-equal `(max_refl, num_gates, centroid)`; otherwise append one
snapshot. (`storm_history[-1]` on a nonempty list is `getLast?`.) -/
def historyStep (ts : String) (cell : Entry) : Entry :=
  match cell.storm_history.getLast? with
  | some last =>
    if last.timestamp = ts then cell
    else if pyEq last.max_refl cell.max_refl ∧ last.num_gates = cell.num_gates ∧
        pyEqPair last.centroid cell.centroid then cell
    else { cell with storm_history := cell.storm_history ++ [mkSnapshot ts cell] }
  | none => { cell with storm_history := cell.storm_history ++ [mkSnapshot ts cell] }

/-- Embeds `CellDataSaver.append_storm_history`, with the timestamp that
`DetectionDataHandler.find_timestamp(radar_path)` (external filename
parsing) would yield passed in directly. -/
def append_storm_history (entries : List Entry) (timestamp_new : String) : List Entry :=
  entries.map (historyStep timestamp_new)

/-- The Python dict comprehension
`updated_map = {int(cell['id']): cell for cell in updated_data}`: the LAST
record with a given id wins, so lookup folds left keeping the latest hit. -/
def lookupLast (l : List Entry) (i : Int) : Option Entry :=
  l.foldl (fun acc c => if c.id = i then some c else acc) none

/-- The field overwrite of `StormCellTracker.update_cells`: current-state
fields (`id`, `num_gates`, `centroid`, `max_refl`, `bbox`) are taken from
the new record, `storm_history` is left untouched. -/
def overwriteFields (cell updated : Entry) : Entry :=
  { cell with
      id := updated.id
      num_gates := updated.num_gates
      centroid := updated.centroid
      max_refl := updated.max_refl
      bbox := updated.bbox }

/-- The body of the first loop of `update_cells`, threading the pair
`(used_ids, updated_entries)` through `entries`. -/
def trackStep (updated_data : List Entry) (acc : List Int × List Entry)
    (cell : Entry) : List Int × List Entry :=
  match lookupLast updated_data cell.id with
  | some u => (cell.id :: acc.1, acc.2 ++ [overwriteFields cell u])
  | none => acc

/-- Embeds `StormCellTracker.update_cells`: update matched existing cells in place
(preserving their history), drop unmatched existing cells, then append the
new records whose id no existing cell consumed. (The `io_manager` debug
logging is I/O and is dropped.) -/
def update_cells (entries updated_data : List Entry) : List Entry :=
  let p := entries.foldl (trackStep updated_data) ([], [])
  p.2 ++ updated_data.filter (fun c => !(p.1.contains c.id))

/-- Models `skimage.measure.find_contours(mask.astype(float), 0.5)`, abstracted:
given the region's boolean mask, the list of level-0.5 contours, each an
ordered list of (already-truncated) `(row, col)` index pairs. It is a
parameter because skimage is an external library; `draw_bbox` only consumes
the returned list structure. On a constant mask (no 0/1 transition)
`find_contours` returns the empty list. -/
abbrev FindContoursFn := Mask → List (List (Nat × Nat))

/-- Python `max(contours, key=len)`: the first contour of maximal length. -/
def longestContour (c : List (Nat × Nat)) (cs : List (List (Nat × Nat))) :
    List (Nat × Nat) :=
  cs.foldl (fun best x => if best.length < x.length then x else best) c

/-- Python slicing `contour[::step]`: every `step`-th element, starting at
index 0. -/
def everyNth (step : Nat) (l : List α) : List α :=
  (l.enum.filter fun p => p.1 % step = 0).map (·.2)

/-- Embeds `np.unique(polygon_grid)` over the extent followed by
`unique_ids[unique_ids != 0]`. -/
def uniqueIdsAll (rows cols : Nat) (g : Grid) : List Int :=
  (((List.range rows).flatMap fun i =>
      (List.range cols).map fun j => g i j).foldl
    (fun acc v => insertUnique v acc) []).filter (fun v => v ≠ 0)

/-- Embeds `GateMapper.draw_bbox`: for each nonzero id of the (expanded) grid, skip
it when its mask is empty or when `find_contours` finds no contour;
otherwise keep the longest contour, downsample every `step` points, and map
indices to `(lats[r], lons[c])` pairs. Regions that are skipped get no
entry in the returned dictionary at all. -/
def draw_bbox (find_contours : FindContoursFn) (rows cols : Nat) (g : Grid)
    (lats lons : List ℚ) (step : Nat := 8) : List (Int × List (ℚ × ℚ)) :=
  (uniqueIdsAll rows cols g).filterMap fun pid =>
    if (maskCells rows cols g pid).isEmpty then none
    else
      match find_contours (fun i j => decide (g i j = pid)) with
      | [] => none
      | c :: cs =>
        some (pid, (everyNth step (longestContour c cs)).map fun rc =>
          (lats.getD rc.1 0, lons.getD rc.2 0))

/-! ## Helper lemmas about the region-growth engine -/

lemma newAssignments_of_ne (rows cols : Nat) (mask : Mask) (g : Grid) (i j : Nat)
    (h : g i j ≠ 0) : newAssignments rows cols mask g i j = 0 := by
  unfold newAssignments
  simp [h]

lemma newAssignments_of_nomask (rows cols : Nat) (mask : Mask) (g : Grid) (i j : Nat)
    (h : mask i j = false) : newAssignments rows cols mask g i j = 0 := by
  unfold newAssignments candidates
  simp [h]

lemma growStep_of_ne (rows cols : Nat) (mask : Mask) (g : Grid) (i j : Nat)
    (h : g i j ≠ 0) : growStep rows cols mask g i j = g i j := by
  unfold growStep
  rw [newAssignments_of_ne rows cols mask g i j h]
  simp

lemma growStep_of_nomask (rows cols : Nat) (mask : Mask) (g : Grid) (i j : Nat)
    (h : mask i j = false) : growStep rows cols mask g i j = g i j := by
  unfold growStep
  rw [newAssignments_of_nomask rows cols mask g i j h]
  simp

lemma growLoop_of_ne (rows cols : Nat) (mask : Mask) (i j : Nat) :
    ∀ (fuel : Nat) (g : Grid), g i j ≠ 0 →
      growLoop rows cols mask fuel g i j = g i j := by
  intro fuel
  induction fuel with
  | zero => intro g _; rfl
  | succ n ih =>
    intro g h
    unfold growLoop
    by_cases hc : anyCandidates rows cols mask g
    · simp only [hc, if_true]
      have hstep := growStep_of_ne rows cols mask g i j h
      rw [ih (growStep rows cols mask g) (by rw [hstep]; exact h), hstep]
    · simp [hc]

lemma growLoop_of_nomask (rows cols : Nat) (mask : Mask) (i j : Nat)
    (h : mask i j = false) :
    ∀ (fuel : Nat) (g : Grid), growLoop rows cols mask fuel g i j = g i j := by
  intro fuel
  induction fuel with
  | zero => intro g; rfl
  | succ n ih =>
    intro g
    unfold growLoop
    by_cases hc : anyCandidates rows cols mask g
    · simp only [hc, if_true]
      rw [ih (growStep rows cols mask g), growStep_of_nomask rows cols mask g i j h]
    · simp [hc]

/-! ## Helper lemmas about the mapper -/

lemma assignFold_of_ne (contains : ContainsFn) (lats lons : List ℚ) (i j : Nat) :
    ∀ (fs : List Feature) (g : Grid), g i j ≠ 0 →
      (fs.foldl (assignFeature contains lats lons) g) i j = g i j := by
  intro fs
  induction fs with
  | nil => intro g _; rfl
  | cons f fs ih =>
    intro g h
    have hstep : assignFeature contains lats lons g f i j = g i j := by
      unfold assignFeature
      rw [if_neg]
      intro hand
      exact h hand.1
    rw [List.foldl_cons, ih (assignFeature contains lats lons g f) (by rw [hstep]; exact h),
      hstep]

lemma assignFold_of_zero (contains : ContainsFn) (lats lons : List ℚ) (i j : Nat) :
    ∀ (fs : List Feature) (g : Grid), (∀ f ∈ fs, 0 < f.id) → g i j = 0 →
      (fs.foldl (assignFeature contains lats lons) g) i j =
        firstMatchId contains fs (lons.getD j 0, lats.getD i 0) := by
  intro fs
  induction fs with
  | nil => intro g _ h0; simpa [firstMatchId] using h0
  | cons f fs ih =>
    intro g hid h0
    rw [List.foldl_cons]
    by_cases hc : contains f.rings (lons.getD j 0, lats.getD i 0) = true
    · have hstep : assignFeature contains lats lons g f i j = f.id := by
        unfold assignFeature
        rw [if_pos ⟨h0, hc⟩]
      have hfid : f.id ≠ 0 := by
        have := hid f (List.mem_cons_self f fs)
        omega
      rw [assignFold_of_ne contains lats lons i j fs _ (by rw [hstep]; exact hfid), hstep]
      unfold firstMatchId
      rw [List.find?_cons_of_pos
        (p := fun x : Feature => contains x.rings (lons.getD j 0, lats.getD i 0)) _ hc]
    · have hstep : assignFeature contains lats lons g f i j = g i j := by
        unfold assignFeature
        rw [if_neg]
        intro hand
        exact hc hand.2
      rw [ih (assignFeature contains lats lons g f) (fun x hx => hid x (List.mem_cons_of_mem f hx))
        (by rw [hstep]; exact h0)]
      unfold firstMatchId
      rw [List.find?_cons_of_neg
        (p := fun x : Feature => contains x.rings (lons.getD j 0, lats.getD i 0)) _ (by simpa using hc)]

/-! ## Claim theorems -/

/-- C1 — Monotonic claim: once a gate of the ownership grid holds a nonzero
polygon id, every remaining growth iteration of the pass leaves exactly that
value in place, and `expand_gates` (for any iteration budget) never
reassigns it. -/
theorem C1_monotonic_claim (rows cols : Nat) (mask : Mask)
    (reflg : Nat → Nat → RVal) (thr : ℚ) (fuel : Nat) (g : Grid) (i j : Nat)
    (h : g i j ≠ 0) :
    growLoop rows cols mask fuel g i j = g i j ∧
    expand_gates rows cols reflg thr g fuel i j = g i j :=
  ⟨growLoop_of_ne rows cols mask i j fuel g h,
   growLoop_of_ne rows cols (reflMask reflg thr) i j fuel g h⟩

/-- C1 witness: a 1×1 grid whose single gate holds id 5 keeps id 5 through
three growth iterations. -/
theorem C1_monotonic_claim_witness :
    growLoop 1 1 (fun _ _ => true) 3 (fun _ _ => (5 : Int)) 0 0 = 5 ∧
    expand_gates 1 1 (fun _ _ => RVal.val 50) 40 (fun _ _ => (5 : Int)) 3 0 0 = 5 :=
  C1_monotonic_claim 1 1 (fun _ _ => true) (fun _ _ => RVal.val 50) 40 3
    (fun _ _ => (5 : Int)) 0 0 (by decide)

/-- C2 counterexample: a gate with reflectivity 10, strictly below the
threshold 40, sits inside the single supplied polygon; the mapper assigns it
id 1 and `expand_gates` returns it still owned by region 1, so a
below-threshold gate IS present in the returned ownership grid. -/
theorem C2_threshold_exclusion_counterexample :
    (10 : ℚ) < 40 ∧
    expand_gates 1 1 (fun _ _ => RVal.val 10) 40
      ((map_gates_to_polygons (fun _ _ => true) [0] [0]
        [{ id := 1, rings := [[(0, 0)]] }]).2) 100 0 0 = 1 := by
  refine ⟨by norm_num, ?_⟩
  decide

/-- C2 (amended) — Threshold exclusion for expansion: a gate that fails the
`intensity >= threshold` test (below threshold, or NaN) keeps its
mapped-grid value through `expand_gates`: expansion never claims it, so if
it was unowned after mapping it stays unowned, no matter how many owned
neighbors it has. (The mapper itself, however, assigns polygons without any
threshold test, so such a gate may still carry the id it got from the
mapper.) -/
theorem C2_threshold_exclusion_amended (rows cols : Nat)
    (reflg : Nat → Nat → RVal) (thr : ℚ) (fuel : Nat) (g : Grid) (i j : Nat)
    (h : reflMask reflg thr i j = false) :
    expand_gates rows cols reflg thr g fuel i j = g i j :=
  growLoop_of_nomask rows cols (reflMask reflg thr) i j h fuel g

/-- C2 witness: a 2×2 grid with one owned gate; the below-threshold gate
beside it stays unowned after expansion. -/
theorem C2_threshold_exclusion_witness :
    expand_gates 1 2 (fun _ j => if j = 0 then RVal.val 50 else RVal.val 10) 40
      (fun i j => if i = 0 ∧ j = 0 then 1 else 0) 5 0 1 = 0 :=
  C2_threshold_exclusion_amended 1 2
    (fun _ j => if j = 0 then RVal.val 50 else RVal.val 10) 40 5
    (fun i j => if i = 0 ∧ j = 0 then 1 else 0) 0 1 (by decide)

/-- C4 — Mapper contract: the ownership grid built by
`map_gates_to_polygons` gives every gate the id of the first candidate
polygon, in supplied order, whose (longitude-normalized) polygon contains
the gate's point, and 0 when none does; an already-assigned gate is never
overwritten (that is what the first-match characterization expresses), and
an empty candidate list yields the all-zero grid. The hypothesis `0 < f.id`
is the data model's "ID > 0; ID 0 reserved for unclaimed". -/
theorem C4_mapper_contract (contains : ContainsFn) (lats lons : List ℚ)
    (features : List Feature) (hid : ∀ f ∈ features, 0 < f.id) :
    (∀ i j, (map_gates_to_polygons contains lats lons features).2 i j =
      firstMatchId contains (features.map normalizeFeature)
        (lons.getD j 0, lats.getD i 0)) ∧
    (features = [] → ∀ i j,
      (map_gates_to_polygons contains lats lons features).2 i j = 0) := by
  constructor
  · intro i j
    have hid2 : ∀ f ∈ features.map normalizeFeature, 0 < f.id := by
      intro f hf
      rcases List.mem_map.mp hf with ⟨f0, hf0, rfl⟩
      exact hid f0 hf0
    exact assignFold_of_zero contains lats lons i j (features.map normalizeFeature)
      (fun _ _ => 0) hid2 rfl
  · intro h
    subst h
    intro i j
    rfl

/-- C4 witness: two polygons both containing the gate at (lon 0, lat 0);
the grid records the first one's id, 1, and the empty candidate list gives
the all-zero grid. -/
theorem C4_mapper_contract_witness :
    (map_gates_to_polygons (fun _ p => decide (p.1 = 0)) [0] [0, 1]
      [{ id := 1, rings := [[(0, 0)]] }, { id := 2, rings := [[(0, 0)]] }]).2 0 0 =
      firstMatchId (fun _ p => decide (p.1 = 0))
        ([{ id := 1, rings := [[(0, 0)]] },
          { id := 2, rings := [[(0, 0)]] }].map normalizeFeature)
        (([0, 1] : List ℚ).getD 0 0, ([0] : List ℚ).getD 0 0) :=
  (C4_mapper_contract (fun _ p => decide (p.1 = 0)) [0] [0, 1]
    [{ id := 1, rings := [[(0, 0)]] }, { id := 2, rings := [[(0, 0)]] }]
    (by decide)).1 0 0

lemma map_eq_self {α : Type} (l : List α) (f : α → α) (h : ∀ a ∈ l, f a = a) :
    l.map f = l := by
  induction l with
  | nil => rfl
  | cons a t ih =>
    simp only [List.map_cons]
    rw [h a (List.mem_cons_self a t), ih (fun x hx => h x (List.mem_cons_of_mem _ hx))]

lemma normalizeRing_of_nonneg (r : List (ℚ × ℚ)) (h : ∀ p ∈ r, 0 ≤ p.1) :
    normalizeRing r = r := by
  unfold normalizeRing
  apply map_eq_self
  intro p hp
  rw [if_neg (not_lt.mpr (h p hp))]

lemma normalizeFeature_of_nonneg (f : Feature)
    (h : ∀ r ∈ f.rings, ∀ p ∈ r, 0 ≤ p.1) : normalizeFeature f = f := by
  cases f with
  | mk i rs =>
    simp only [normalizeFeature]
    congr 1
    exact map_eq_self rs normalizeRing (fun r hr => normalizeRing_of_nonneg r (h r hr))

/-- C10 counterexample: a feature whose single vertex has longitude −400.
`map_gates_to_polygons` rewrites it once to −40, which is still negative, so
the claim's "after one call all vertex longitudes are non-negative" fails
(and a second call would rewrite the vertex again). -/
theorem C10_mapper_mutation_counterexample :
    (map_gates_to_polygons (fun _ _ => false) [0] [0]
        [{ id := 1, rings := [[(-400, 10)]] }]).1 =
      [{ id := 1, rings := [[(-40, 10)]] }] ∧ (-40 : ℚ) < 0 := by
  constructor
  · norm_num [map_gates_to_polygons, normalizeFeature, normalizeRing]
  · norm_num

/-- C10 (amended) — Mapper mutates its input polygons: provided every
vertex longitude is at least −360 (true of geographic coordinates),
`map_gates_to_polygons` rewrites each negative-longitude vertex to
`(lon + 360, lat)` in the feature set it passes back, after which all
vertex longitudes are non-negative, and a second call on the returned
feature set rewrites nothing and produces the same ownership grid. -/
theorem C10_mapper_mutation_amended (contains : ContainsFn)
    (lats lons : List ℚ) (features : List Feature)
    (h : ∀ f ∈ features, ∀ r ∈ f.rings, ∀ p ∈ r, (-360 : ℚ) ≤ p.1) :
    (∀ f ∈ (map_gates_to_polygons contains lats lons features).1,
      ∀ r ∈ f.rings, ∀ p ∈ r, 0 ≤ p.1) ∧
    (map_gates_to_polygons contains lats lons
        (map_gates_to_polygons contains lats lons features).1).1 =
      (map_gates_to_polygons contains lats lons features).1 ∧
    (∀ i j, (map_gates_to_polygons contains lats lons
        (map_gates_to_polygons contains lats lons features).1).2 i j =
      (map_gates_to_polygons contains lats lons features).2 i j) := by
  have hnn : ∀ f ∈ (map_gates_to_polygons contains lats lons features).1,
      ∀ r ∈ f.rings, ∀ p ∈ r, 0 ≤ p.1 := by
    intro f hf r hr p hp
    simp only [map_gates_to_polygons] at hf
    rcases List.mem_map.mp hf with ⟨f0, hf0, rfl⟩
    simp only [normalizeFeature] at hr
    rcases List.mem_map.mp hr with ⟨r0, hr0, rfl⟩
    unfold normalizeRing at hp
    rcases List.mem_map.mp hp with ⟨p0, hp0, rfl⟩
    have hb := h f0 hf0 r0 hr0 p0 hp0
    by_cases hneg : p0.1 < 0
    · rw [if_pos hneg]
      simp only
      linarith
    · rw [if_neg hneg]
      linarith [not_lt.mp hneg]
  have hfix : ((map_gates_to_polygons contains lats lons features).1).map
      normalizeFeature = (map_gates_to_polygons contains lats lons features).1 :=
    map_eq_self _ normalizeFeature
      (fun f hf => normalizeFeature_of_nonneg f (hnn f hf))
  refine ⟨hnn, ?_, ?_⟩
  · show ((map_gates_to_polygons contains lats lons features).1).map
        normalizeFeature = (map_gates_to_polygons contains lats lons features).1
    exact hfix
  · intro i j
    show (((map_gates_to_polygons contains lats lons features).1).map
        normalizeFeature).foldl (assignFeature contains lats lons) (fun _ _ => 0) i j =
      (map_gates_to_polygons contains lats lons features).2 i j
    rw [hfix]
    rfl

/-- C10 witness: one feature with vertex longitude −100 (≥ −360); a second
call on the feature set returned by the first call leaves it unchanged. -/
theorem C10_mapper_mutation_witness :
    (map_gates_to_polygons (fun _ _ => false) [0] [0]
        ((map_gates_to_polygons (fun _ _ => false) [0] [0]
          [{ id := 1, rings := [[(-100, 20)]] }]).1)).1 =
      (map_gates_to_polygons (fun _ _ => false) [0] [0]
        [{ id := 1, rings := [[(-100, 20)]] }]).1 :=
  (C10_mapper_mutation_amended (fun _ _ => false) [0] [0]
    [{ id := 1, rings := [[(-100, 20)]] }] (by decide)).2.1

/-! ## Helper lemmas about the tracker -/

lemma lookupLast_eq_none (i : Int) :
    ∀ (l : List Entry) (acc : Option Entry),
      l.foldl (fun acc c => if c.id = i then some c else acc) acc = none →
      acc = none ∧ ∀ c ∈ l, c.id ≠ i := by
  intro l
  induction l with
  | nil => intro acc h; exact ⟨h, by intro c hc; cases hc⟩
  | cons c t ih =>
    intro acc h
    rw [List.foldl_cons] at h
    rcases ih _ h with ⟨hstep, ht⟩
    by_cases hc : c.id = i
    · rw [if_pos hc] at hstep
      cases hstep
    · rw [if_neg hc] at hstep
      refine ⟨hstep, ?_⟩
      intro x hx
      rcases List.mem_cons.mp hx with rfl | hx
      · exact hc
      · exact ht x hx

lemma lookupLast_isSome_of_mem (l : List Entry) (c : Entry) (hc : c ∈ l) :
    (lookupLast l c.id).isSome := by
  cases h : lookupLast l c.id with
  | some u => rfl
  | none =>
    have := (lookupLast_eq_none c.id l none h).2 c hc
    exact absurd rfl this

lemma lookupLast_mem (i : Int) :
    ∀ (l : List Entry) (acc : Option Entry) (u : Entry),
      l.foldl (fun acc c => if c.id = i then some c else acc) acc = some u →
      acc = some u ∨ (u ∈ l ∧ u.id = i) := by
  intro l
  induction l with
  | nil => intro acc u h; exact Or.inl h
  | cons c t ih =>
    intro acc u h
    rw [List.foldl_cons] at h
    rcases ih _ u h with hacc | ⟨hm, hi⟩
    · by_cases hc : c.id = i
      · rw [if_pos hc] at hacc
        cases hacc
        exact Or.inr ⟨List.mem_cons_self c t, hc⟩
      · rw [if_neg hc] at hacc
        exact Or.inl hacc
    · exact Or.inr ⟨List.mem_cons_of_mem c hm, hi⟩

lemma trackFold_snd (upd : List Entry) :
    ∀ (entries : List Entry) (acc : List Int × List Entry),
      (entries.foldl (trackStep upd) acc).2 =
        acc.2 ++ entries.filterMap
          (fun c => (lookupLast upd c.id).map (overwriteFields c)) := by
  intro entries
  induction entries with
  | nil => intro acc; simp
  | cons c t ih =>
    intro acc
    rw [List.foldl_cons]
    cases hl : lookupLast upd c.id with
    | none =>
      simp only [trackStep, hl]
      rw [ih acc]
      simp [List.filterMap_cons, hl]
    | some u =>
      simp only [trackStep, hl]
      rw [ih _]
      simp [List.filterMap_cons, hl, List.append_assoc]

lemma trackFold_fst (upd : List Entry) :
    ∀ (entries : List Entry) (acc : List Int × List Entry) (x : Int),
      x ∈ (entries.foldl (trackStep upd) acc).1 ↔
        x ∈ acc.1 ∨ ∃ c ∈ entries, c.id = x ∧ (lookupLast upd c.id).isSome := by
  intro entries
  induction entries with
  | nil => intro acc x; simp
  | cons c t ih =>
    intro acc x
    rw [List.foldl_cons]
    cases hl : lookupLast upd c.id with
    | none =>
      simp only [trackStep, hl]
      rw [ih acc x]
      constructor
      · rintro (h | h)
        · exact Or.inl h
        · rcases h with ⟨e, he, hx, hs⟩
          exact Or.inr ⟨e, List.mem_cons_of_mem c he, hx, hs⟩
      · rintro (h | ⟨e, he, hx, hs⟩)
        · exact Or.inl h
        · rcases List.mem_cons.mp he with rfl | he2
          · rw [hl] at hs
            cases hs
          · exact Or.inr ⟨e, he2, hx, hs⟩
    | some u =>
      simp only [trackStep, hl]
      rw [ih _ x]
      constructor
      · rintro (h | h)
        · rcases List.mem_cons.mp h with rfl | h2
          · exact Or.inr ⟨c, List.mem_cons_self c t, rfl, by rw [hl]; rfl⟩
          · exact Or.inl h2
        · rcases h with ⟨e, he, hx, hs⟩
          exact Or.inr ⟨e, List.mem_cons_of_mem c he, hx, hs⟩
      · rintro (h | ⟨e, he, hx, hs⟩)
        · exact Or.inl (List.mem_cons_of_mem _ h)
        · rcases List.mem_cons.mp he with rfl | he2
          · exact Or.inl (by rw [hx]; exact List.mem_cons_self _ _)
          · exact Or.inr ⟨e, he2, hx, hs⟩

/-- C3 — Tracker reconciliation, the three clauses of
`StormCellTracker.update_cells`:
(1) every existing record whose id has a match in the new set appears in the
output with its current-state fields (`id`, `num_gates`, `centroid`,
`max_refl`, `bbox`) overwritten from the (last) matching new record while
its `storm_history` is exactly the existing record's series;
(2) every record in the output carries an id of the new set, so an existing
record whose id is absent from the new set is dropped entirely;
(3) every new record whose id matches no existing record is appended. -/
theorem C3_tracker_reconciliation (entries updated_data : List Entry) :
    (∀ cell ∈ entries, ∀ u, lookupLast updated_data cell.id = some u →
      overwriteFields cell u ∈ update_cells entries updated_data ∧
      (overwriteFields cell u).storm_history = cell.storm_history ∧
      (overwriteFields cell u).num_gates = u.num_gates ∧
      (overwriteFields cell u).centroid = u.centroid ∧
      (overwriteFields cell u).max_refl = u.max_refl ∧
      (overwriteFields cell u).bbox = u.bbox) ∧
    (∀ c ∈ update_cells entries updated_data, ∃ u ∈ updated_data, u.id = c.id) ∧
    (∀ u ∈ updated_data, (∀ e ∈ entries, e.id ≠ u.id) →
      u ∈ update_cells entries updated_data) := by
  refine ⟨?_, ?_, ?_⟩
  · intro cell hc u hl
    refine ⟨?_, rfl, rfl, rfl, rfl, rfl⟩
    unfold update_cells
    apply List.mem_append_left
    rw [trackFold_snd updated_data entries ([], [])]
    apply List.mem_append_right
    exact List.mem_filterMap.mpr ⟨cell, hc, by rw [hl]; rfl⟩
  · intro c hc
    unfold update_cells at hc
    rcases List.mem_append.mp hc with h2 | h2
    · rw [trackFold_snd updated_data entries ([], [])] at h2
      rcases List.mem_append.mp h2 with h3 | h3
      · cases h3
      · rcases List.mem_filterMap.mp h3 with ⟨e, _, hfe⟩
        cases hle : lookupLast updated_data e.id with
        | none => rw [hle] at hfe; cases hfe
        | some u =>
          rw [hle] at hfe
          cases hfe
          rcases lookupLast_mem e.id updated_data none u hle with hn | ⟨hm, hi⟩
          · cases hn
          · exact ⟨u, hm, rfl⟩
    · have := List.mem_filter.mp h2
      exact ⟨c, this.1, rfl⟩
  · intro u hu hnone
    unfold update_cells
    apply List.mem_append_right
    apply List.mem_filter.mpr
    refine ⟨hu, ?_⟩
    simp only [Bool.not_eq_eq_eq_not, Bool.not_true, List.contains_eq_any_beq]
    rw [Bool.eq_false_iff]
    intro hcontains
    have hmem : u.id ∈ (entries.foldl (trackStep updated_data) ([], [])).1 := by
      rcases List.any_eq_true.mp hcontains with ⟨x, hx, hbeq⟩
      have : u.id = x := by
        have := beq_iff_eq.mp hbeq
        omega
      rw [this]
      exact hx
    rcases (trackFold_fst updated_data entries ([], []) u.id).mp hmem with h | ⟨e, he, hx, _⟩
    · cases h
    · exact hnone e he hx

/-- Concrete existing record id 5 (one history snapshot) for the tracker
witness. -/
def trackE5 : Entry :=
  { id := 5
    num_gates := 1
    centroid := (RVal.val 0, RVal.val 0)
    bbox := []
    max_refl := RVal.val 10
    storm_history := [{ id := 5
                        timestamp := "t1"
                        max_refl := RVal.val 10
                        num_gates := 1
                        centroid := (RVal.val 0, RVal.val 0) }] }

/-- Concrete existing record id 7 for the tracker witness. -/
def trackE7 : Entry :=
  { id := 7
    num_gates := 2
    centroid := (RVal.val 1, RVal.val 1)
    bbox := []
    max_refl := RVal.val 20
    storm_history := [] }

/-- Concrete new record id 5 for the tracker witness. -/
def trackU5 : Entry :=
  { id := 5
    num_gates := 10
    centroid := (RVal.val 2, RVal.val 3)
    bbox := [(1, 1)]
    max_refl := RVal.val 55
    storm_history := [] }

/-- Concrete new record id 9 for the tracker witness. -/
def trackU9 : Entry :=
  { id := 9
    num_gates := 4
    centroid := (RVal.val 5, RVal.val 6)
    bbox := []
    max_refl := RVal.val 45
    storm_history := [] }

/-- C3 witness: with existing records {5, 7} and new records {5, 9}, the
updated id-5 record (history preserved) and the brand-new id-9 record are
both in the tracked output. -/
theorem C3_tracker_reconciliation_witness :
    overwriteFields trackE5 trackU5 ∈ update_cells [trackE5, trackE7] [trackU5, trackU9] ∧
    trackU9 ∈ update_cells [trackE5, trackE7] [trackU5, trackU9] := by
  have h := C3_tracker_reconciliation [trackE5, trackE7] [trackU5, trackU9]
  exact ⟨(h.1 trackE5 (List.mem_cons_self _ _) trackU5 rfl).1,
    h.2.2 trackU9 (List.mem_cons_of_mem _ (List.mem_cons_self _ _)) (by decide)⟩

/-- C9 — History-append deduplication: `append_storm_history` rewrites each
record by `historyStep`, which appends exactly one snapshot
`{id, timestamp, max_refl, num_gates, centroid}` built from the record's
current fields — except that it appends nothing when the latest existing
snapshot already carries the new timestamp, or when it carries
Python-equal `(max_refl, num_gates, centroid)`; a record with no history
always gets its first snapshot. -/
lemma historyStep_some (ts : String) (cell : Entry) (last : Snapshot)
    (hlast : cell.storm_history.getLast? = some last) :
    historyStep ts cell =
      if last.timestamp = ts then cell
      else if pyEq last.max_refl cell.max_refl ∧ last.num_gates = cell.num_gates ∧
          pyEqPair last.centroid cell.centroid then cell
      else { cell with storm_history := cell.storm_history ++ [mkSnapshot ts cell] } := by
  unfold historyStep
  rw [hlast]

lemma historyStep_none (ts : String) (cell : Entry)
    (hnone : cell.storm_history.getLast? = none) :
    historyStep ts cell =
      { cell with storm_history := cell.storm_history ++ [mkSnapshot ts cell] } := by
  unfold historyStep
  rw [hnone]

theorem C9_history_append_dedup (entries : List Entry) (ts : String)
    (cell : Entry) (h : cell ∈ entries) :
    historyStep ts cell ∈ append_storm_history entries ts ∧
    (∀ last, cell.storm_history.getLast? = some last →
      ((last.timestamp = ts ∨
          (pyEq last.max_refl cell.max_refl = true ∧
           last.num_gates = cell.num_gates ∧
           pyEqPair last.centroid cell.centroid = true)) →
        (historyStep ts cell).storm_history = cell.storm_history) ∧
      (¬(last.timestamp = ts ∨
          (pyEq last.max_refl cell.max_refl = true ∧
           last.num_gates = cell.num_gates ∧
           pyEqPair last.centroid cell.centroid = true)) →
        (historyStep ts cell).storm_history =
          cell.storm_history ++ [mkSnapshot ts cell])) ∧
    (cell.storm_history.getLast? = none →
      (historyStep ts cell).storm_history =
        cell.storm_history ++ [mkSnapshot ts cell]) := by
  refine ⟨List.mem_map.mpr ⟨cell, h, rfl⟩, ?_, ?_⟩
  · intro last hlast
    constructor
    · intro hskip
      rw [historyStep_some ts cell last hlast]
      by_cases hts : last.timestamp = ts
      · rw [if_pos hts]
      · rw [if_neg hts]
        rcases hskip with hts2 | hvals
        · exact absurd hts2 hts
        · rw [if_pos hvals]
    · intro hskip
      rw [historyStep_some ts cell last hlast, if_neg (fun hts => hskip (Or.inl hts)),
        if_neg (fun hvals => hskip (Or.inr hvals))]
  · intro hnone
    rw [historyStep_none ts cell hnone]

/-- The latest snapshot of the deduplication witness record: same
`(max_refl, num_gates, centroid)` as the record's current fields, older
timestamp. -/
def dedupSnap : Snapshot :=
  { id := 5
    timestamp := "t1"
    max_refl := RVal.val 42
    num_gates := 3
    centroid := (RVal.val 1, RVal.val 2) }

/-- A record whose current fields equal its last history entry, for the
deduplication witness. -/
def dedupCell : Entry :=
  { id := 5
    num_gates := 3
    centroid := (RVal.val 1, RVal.val 2)
    bbox := []
    max_refl := RVal.val 42
    storm_history := [dedupSnap] }

/-- C9 witness: a record whose new values equal its last history entry keeps
its one-element history unchanged under `append_storm_history`. -/
theorem C9_history_append_dedup_witness :
    historyStep "t2" dedupCell ∈ append_storm_history [dedupCell] "t2" ∧
    (historyStep "t2" dedupCell).storm_history = dedupCell.storm_history := by
  have h := C9_history_append_dedup [dedupCell] "t2" dedupCell (List.mem_cons_self _ _)
  exact ⟨h.1, (h.2.1 dedupSnap rfl).1 (Or.inr ⟨by decide, rfl, by decide⟩)⟩

/-- C6 counterexample: a 1×1 grid wholly owned by region 1. The mask of
region 1 is constant, so `find_contours` (instantiated here as the function
returning no contour, which is skimage's documented behaviour on a constant
mask: there is no level-0.5 crossing) finds nothing — and `draw_bbox` then
omits region 1 from its output entirely instead of giving it an empty
boundary. -/
theorem C6_empty_boundary_counterexample :
    (1 : Int) ∈ uniqueIdsAll 1 1 (fun _ _ => 1) ∧
    ¬ ∃ pr ∈ draw_bbox (fun _ => []) 1 1 (fun _ _ => 1) [0] [0] 8, pr.1 = 1 := by
  decide

/-- C6 (amended) — Missing contour: when `find_contours` yields no contour
for a region's mask, `draw_bbox` skips the region: its id has no entry at
all in the returned boundary dictionary (consequently the region gets no
cell record downstream), and no exception is raised — the remaining
regions are still produced by the same total function. -/
theorem C6_empty_boundary_amended (fc : FindContoursFn) (rows cols : Nat)
    (g : Grid) (lats lons : List ℚ) (step : Nat) (pid : Int)
    (hfc : fc (fun i j => decide (g i j = pid)) = []) :
    pid ∉ (draw_bbox fc rows cols g lats lons step).map Prod.fst := by
  intro hmem
  rcases List.mem_map.mp hmem with ⟨pr, hpr, hfst⟩
  unfold draw_bbox at hpr
  rcases List.mem_filterMap.mp hpr with ⟨q, _, hfq⟩
  by_cases hm : (maskCells rows cols g q).isEmpty = true
  · rw [if_pos hm] at hfq
    cases hfq
  · rw [if_neg hm] at hfq
    cases hcs : fc (fun i j => decide (g i j = q)) with
    | nil =>
      rw [hcs] at hfq
      cases hfq
    | cons c cs =>
      rw [hcs] at hfq
      cases hfq
      have hqpid : q = pid := hfst
      rw [hqpid] at hcs
      rw [hfc] at hcs
      cases hcs

/-- The contour oracle of the C6 witness: region 1's mask (which covers the
gate (0,0)) is reported contour-free, region 2's mask gets one contour. -/
def witnessFc : FindContoursFn := fun m => if m 0 0 then [] else [[(0, 0)]]

/-- The 1×2 grid of the C6 witness: gate (0,0) owned by region 1, gate
(0,1) owned by region 2. -/
def witnessGrid : Grid := fun i j => if i = 0 ∧ j = 0 then 1 else if i = 0 ∧ j = 1 then 2 else 0

/-- C6 witness: region 1, whose mask gets no contour, is absent from the
keys of the boundary dictionary. -/
theorem C6_empty_boundary_witness :
    (1 : Int) ∉ (draw_bbox witnessFc 1 2 witnessGrid [0] [0, 1] 8).map Prod.fst :=
  C6_empty_boundary_amended witnessFc 1 2 witnessGrid [0] [0, 1] 8 1 (by decide)

/-! ## Helper lemmas about the record builder -/

lemma foldl_add_eq (a : ℚ) : ∀ l : List ℚ, l.foldl (· + ·) a = a + l.sum := by
  intro l
  induction l generalizing a with
  | nil => simp
  | cons x t ih =>
    rw [List.foldl_cons, ih (a + x), List.sum_cons]
    ring

lemma sumQ_eq_sum (l : List ℚ) : sumQ l = l.sum := by
  unfold sumQ
  rw [foldl_add_eq, zero_add]

lemma sumQ_pos (l : List ℚ) (h : ∀ x ∈ l, 0 < x) (hne : l ≠ []) : 0 < sumQ l := by
  rw [sumQ_eq_sum]
  exact List.sum_pos l h hne

lemma qmod_bounds (a : ℚ) : 0 ≤ qmod a 360 ∧ qmod a 360 < 360 := by
  unfold qmod
  have h360 : (0 : ℚ) < 360 := by norm_num
  have e : 360 * (a / 360) = a := by field_simp
  have h1 : (⌊a / 360⌋ : ℚ) ≤ a / 360 := Int.floor_le _
  have h2 : a / 360 < ⌊a / 360⌋ + 1 := Int.lt_floor_add_one _
  have h1m := mul_le_mul_of_nonneg_left h1 (le_of_lt h360)
  have h2m := mul_lt_mul_of_pos_left h2 h360
  rw [e] at h1m h2m
  constructor
  · linarith
  · nlinarith

lemma validGates_sub_mask (rows cols : Nat) (g : Grid) (reflg : Nat → Nat → RVal)
    (lats lons : List ℚ) (pid : Int)
    (h : maskCells rows cols g pid = []) :
    validGates rows cols g reflg lats lons pid = [] := by
  unfold validGates
  rw [h]
  rfl

lemma entryFor_some_spec (wexp : ℚ → ℚ) (rows cols : Nat) (g : Grid)
    (reflg : Nat → Nat → RVal) (lats lons : List ℚ)
    (pb : Int × List (ℚ × ℚ)) (e : Entry)
    (h : entryFor wexp rows cols g reflg lats lons pb = some e) :
    e.id = pb.1 ∧ pb.1 ≠ 0 ∧ (maskCells rows cols g pb.1).isEmpty = false := by
  unfold entryFor at h
  by_cases h0 : pb.1 = 0
  · rw [if_pos h0] at h
    cases h
  · rw [if_neg h0] at h
    by_cases hm : (maskCells rows cols g pb.1).isEmpty = true
    · rw [if_pos hm] at h
      cases h
    · rw [if_neg hm] at h
      cases h
      exact ⟨rfl, h0, Bool.eq_false_iff.mpr hm⟩

lemma entryFor_of_valid (wexp : ℚ → ℚ) (rows cols : Nat) (g : Grid)
    (reflg : Nat → Nat → RVal) (lats lons : List ℚ) (pid : Int)
    (bbox : List (ℚ × ℚ)) (v : ℚ × ℚ × ℚ) (vs : List (ℚ × ℚ × ℚ))
    (hpid : pid ≠ 0)
    (hv : validGates rows cols g reflg lats lons pid = v :: vs) :
    entryFor wexp rows cols g reflg lats lons (pid, bbox) =
      some { id := pid
             num_gates := (maskCells rows cols g pid).length
             centroid := (RVal.val (sumQ ((v :: vs).map fun x => x.2.1 * wexp x.1) /
                            sumQ ((v :: vs).map fun x => wexp x.1)),
                          RVal.val (qmod (sumQ ((v :: vs).map fun x => x.2.2 * wexp x.1) /
                            sumQ ((v :: vs).map fun x => wexp x.1)) 360))
             bbox := bbox
             max_refl := RVal.val (maxQ v.1 (vs.map (·.1)))
             storm_history := [] } := by
  have hmask : (maskCells rows cols g pid).isEmpty = false := by
    rcases h2 : maskCells rows cols g pid with _ | ⟨c, cs⟩
    · exfalso
      have := validGates_sub_mask rows cols g reflg lats lons pid h2
      rw [hv] at this
      cases this
    · rfl
  unfold entryFor
  rw [if_neg hpid, if_neg (by rw [hmask]; exact Bool.false_ne_true)]
  simp only [hv]

/-- C7 — Centroid definition and longitude wrap: a region with at least one
valid (non-NaN) owned gate gets a record whose centroid is the
weight-`wexp`-averaged latitude and longitude of its valid gates (the code
uses `wexp = np.exp`, abstracted here as any strictly positive weight
function) with the longitude wrapped by `qmod · 360` into `[0, 360)`; the
last conjunct is the weighted-average identity `latc · Σw = Σ(lat · w)`. -/
theorem C7_centroid_weighting (wexp : ℚ → ℚ)
    (bboxes : List (Int × List (ℚ × ℚ))) (rows cols : Nat) (g : Grid)
    (reflg : Nat → Nat → RVal) (lats lons : List ℚ) (pid : Int)
    (bbox : List (ℚ × ℚ)) (v : ℚ × ℚ × ℚ) (vs : List (ℚ × ℚ × ℚ))
    (hmem : (pid, bbox) ∈ bboxes) (hpid : pid ≠ 0) (hw : ∀ q, 0 < wexp q)
    (hv : validGates rows cols g reflg lats lons pid = v :: vs) :
    ({ id := pid
       num_gates := (maskCells rows cols g pid).length
       centroid := (RVal.val (sumQ ((v :: vs).map fun x => x.2.1 * wexp x.1) /
                      sumQ ((v :: vs).map fun x => wexp x.1)),
                    RVal.val (qmod (sumQ ((v :: vs).map fun x => x.2.2 * wexp x.1) /
                      sumQ ((v :: vs).map fun x => wexp x.1)) 360))
       bbox := bbox
       max_refl := RVal.val (maxQ v.1 (vs.map (·.1)))
       storm_history := [] } : Entry) ∈
      create_entry wexp bboxes rows cols g reflg lats lons ∧
    0 ≤ qmod (sumQ ((v :: vs).map fun x => x.2.2 * wexp x.1) /
        sumQ ((v :: vs).map fun x => wexp x.1)) 360 ∧
    qmod (sumQ ((v :: vs).map fun x => x.2.2 * wexp x.1) /
        sumQ ((v :: vs).map fun x => wexp x.1)) 360 < 360 ∧
    (sumQ ((v :: vs).map fun x => x.2.1 * wexp x.1) /
        sumQ ((v :: vs).map fun x => wexp x.1)) *
      sumQ ((v :: vs).map fun x => wexp x.1) =
      sumQ ((v :: vs).map fun x => x.2.1 * wexp x.1) := by
  have hsw : 0 < sumQ ((v :: vs).map fun x => wexp x.1) := by
    apply sumQ_pos
    · intro x hx
      rcases List.mem_map.mp hx with ⟨y, _, rfl⟩
      exact hw y.1
    · simp
  refine ⟨?_, (qmod_bounds _).1, (qmod_bounds _).2, ?_⟩
  · unfold create_entry
    exact List.mem_filterMap.mpr
      ⟨(pid, bbox), hmem,
        entryFor_of_valid wexp rows cols g reflg lats lons pid bbox v vs hpid hv⟩
  · exact div_mul_cancel₀ _ (ne_of_gt hsw)

/-- The concrete weight function of the C7 witness (any positive weight
instantiates the abstract `np.exp`). -/
def w1 : ℚ → ℚ := fun _ => 1

/-- C7 witness: one region owning the single gate (reflectivity 2, latitude
5, longitude 362); its record is in the builder output with the weighted
centroid, and the wrapped longitude lies in `[0, 360)`. -/
theorem C7_centroid_weighting_witness :
    ({ id := 1
       num_gates := 1
       centroid := (RVal.val (sumQ [(5 : ℚ) * w1 2] / sumQ [w1 2]),
                    RVal.val (qmod (sumQ [(362 : ℚ) * w1 2] / sumQ [w1 2]) 360))
       bbox := []
       max_refl := RVal.val (maxQ 2 [])
       storm_history := [] } : Entry) ∈
      create_entry w1 [(1, [])] 1 1 (fun _ _ => 1) (fun _ _ => RVal.val 2) [5] [362] ∧
    0 ≤ qmod (sumQ [(362 : ℚ) * w1 2] / sumQ [w1 2]) 360 ∧
    qmod (sumQ [(362 : ℚ) * w1 2] / sumQ [w1 2]) 360 < 360 ∧
    sumQ [(5 : ℚ) * w1 2] / sumQ [w1 2] * sumQ [w1 2] = sumQ [(5 : ℚ) * w1 2] :=
  C7_centroid_weighting w1 [(1, [])] 1 1 (fun _ _ => 1) (fun _ _ => RVal.val 2)
    [5] [362] 1 [] ((2 : ℚ), (5 : ℚ), (362 : ℚ)) []
    (List.mem_cons_self _ _) (by decide) (fun _ => one_pos) rfl

/-- C8 counterexample: region 2 appears in `bboxes` but owns no gate in the
grid (empty mask). `create_entry` skips it via `continue`, so no record at
all is emitted for it — not a record with NaN sentinels as the claim
states for the empty-mask case. -/
theorem C8_sentinel_counterexample :
    maskCells 1 1 (fun _ _ => 0) 2 = [] ∧
    ((2 : Int), ([] : List (ℚ × ℚ))) ∈ [((2 : Int), ([] : List (ℚ × ℚ)))] ∧
    ¬ ∃ e ∈ create_entry (fun _ => 1) [(2, [])] 1 1 (fun _ _ => 0)
        (fun _ _ => RVal.val 50) [0] [0], e.id = 2 := by
  decide

/-- C8 (amended) — Numeric-undefined sentinel: a region whose mask is
nonempty but all of whose raster values under the mask are NaN (no valid
gate) still gets a record, with centroid `(NaN, NaN)` and NaN peak
intensity as sentinels, and no exception is raised; a region whose mask is
empty, however, is skipped entirely and yields no record (also without an
exception). -/
theorem C8_sentinel_amended (wexp : ℚ → ℚ)
    (bboxes : List (Int × List (ℚ × ℚ))) (rows cols : Nat) (g : Grid)
    (reflg : Nat → Nat → RVal) (lats lons : List ℚ) (pid : Int)
    (bbox : List (ℚ × ℚ)) (hmem : (pid, bbox) ∈ bboxes) (hpid : pid ≠ 0) :
    ((maskCells rows cols g pid).isEmpty = false →
      validGates rows cols g reflg lats lons pid = [] →
      ({ id := pid
         num_gates := (maskCells rows cols g pid).length
         centroid := (RVal.nan, RVal.nan)
         bbox := bbox
         max_refl := RVal.nan
         storm_history := [] } : Entry) ∈
        create_entry wexp bboxes rows cols g reflg lats lons) ∧
    ((maskCells rows cols g pid).isEmpty = true →
      pid ∉ (create_entry wexp bboxes rows cols g reflg lats lons).map Entry.id) := by
  constructor
  · intro hmask hvalid
    unfold create_entry
    apply List.mem_filterMap.mpr
    refine ⟨(pid, bbox), hmem, ?_⟩
    unfold entryFor
    rw [if_neg hpid, if_neg (by rw [hmask]; exact Bool.false_ne_true)]
    simp only [hvalid]
  · intro hmask hin
    rcases List.mem_map.mp hin with ⟨e, he, hid⟩
    unfold create_entry at he
    rcases List.mem_filterMap.mp he with ⟨pb, _, hfe⟩
    rcases entryFor_some_spec wexp rows cols g reflg lats lons pb e hfe with
      ⟨hide, _, hmaskne⟩
    rw [hide] at hid
    rw [hid] at hmaskne
    rw [hmask] at hmaskne
    cases hmaskne

/-- C8 witness: region 3 owns the single gate, whose reflectivity is NaN;
its record is emitted with centroid `(NaN, NaN)` and NaN peak intensity. -/
theorem C8_sentinel_witness :
    ({ id := 3
       num_gates := 1
       centroid := (RVal.nan, RVal.nan)
       bbox := []
       max_refl := RVal.nan
       storm_history := [] } : Entry) ∈
      create_entry (fun _ => 1) [(3, [])] 1 1 (fun _ _ => 3)
        (fun _ _ => RVal.nan) [0] [0] :=
  (C8_sentinel_amended (fun _ => 1) [(3, [])] 1 1 (fun _ _ => 3)
    (fun _ _ => RVal.nan) [0] [0] 3 [] (List.mem_cons_self _ _) (by decide)).1
    (by decide) rfl

/-- The containment oracle of the C5 failing input: a polygon containing
exactly the points with longitude 0. -/
def bugContains : ContainsFn := fun _ p => decide (p.1 = 0)

/-- The mapped (pre-growth) ownership grid of the C5 failing input: on the
1×2 raster with longitudes `[0, 1]`, only gate (0,0) is inside the
polygon, so the mapped grid is `[1, 0]`. -/
def bugMapped : Grid :=
  (map_gates_to_polygons bugContains [0] [0, 1] [{ id := 1, rings := [[(0, 0)]] }]).2

/-- Reflectivity 50 everywhere (above the threshold 40) for the C5 failing
input. -/
def bugRefl : Nat → Nat → RVal := fun _ _ => RVal.val 50

/-- The final (post-growth) ownership grid of the C5 failing input: growth
claims the qualifying neighbor gate (0,1), giving `[1, 1]`. -/
def bugExpanded : Grid := expand_gates 1 2 bugRefl 40 bugMapped 100

/-- C5 — the code evaluated at the failing input: `create_entry` reads
`self.mapped_ds['PolygonID']` (the pre-growth mapper output), so region 1's
record reports `num_gates = 1`, the gate count of the mapped grid — even
though region 1 owns 2 gates in the final grid produced by `expand_gates`,
over which the claim (and the spec's data flow, and the boundary in
`bboxes` that the very same record carries) requires the statistics to be
computed. -/
theorem C5_builder_pregrowth_grid_bug :
    (create_entry (fun _ => 1) [(1, [])] 1 2 bugMapped bugRefl [0]
        [0, 1]).map Entry.num_gates = [1] ∧
    (maskCells 1 2 bugMapped 1).length = 1 ∧
    (maskCells 1 2 bugExpanded 1).length = 2 := by
  decide
